import Mathlib

/-
  Verification of rycus86/docker-filter, package `pkg/connect`.

  The data model is embedded from `src/pkg/connect/types.go`.  The proxy
  connection engine (request filter dispatch, synthetic error responses,
  the JSON filter adapter and the registration functions) is not present
  in the source tree - only its declarations, tests and callers are - so
  those operations are modelled from the specification (spec.md sections
  4.1, 4.2, 4.3 and 4.6), as noted on each definition.
-/

namespace DockerFilter

/-! ## Compiled path patterns

Handlers store a compiled regular expression (`pattern *regexp.Regexp` in
`types.go`).  We embed compiled patterns as a regular-expression syntax tree
with Brzozowski-derivative matching.  Following Go's `regexp` semantics, a
pattern matches a path when it matches SOMEWHERE in the path (unanchored
search); the compilation of the empty pattern is `Regex.eps`. -/

inductive Regex : Type
  | emp : Regex
  | eps : Regex
  | chr : Char → Regex
  | alt : Regex → Regex → Regex
  | cat : Regex → Regex → Regex
  | star : Regex → Regex
deriving DecidableEq

def Regex.nullable : Regex → Bool
  | .emp => false
  | .eps => true
  | .chr _ => false
  | .alt a b => a.nullable || b.nullable
  | .cat a b => a.nullable && b.nullable
  | .star _ => true

def Regex.deriv : Regex → Char → Regex
  | .emp, _ => .emp
  | .eps, _ => .emp
  | .chr c, d => if c = d then .eps else .emp
  | .alt a b, d => .alt (a.deriv d) (b.deriv d)
  | .cat a b, d =>
      if a.nullable then .alt (.cat (a.deriv d) b) (b.deriv d)
      else .cat (a.deriv d) b
  | .star a, d => .cat (a.deriv d) (.star a)

/-- Anchored acceptance: the pattern matches the whole character list. -/
def Regex.accepts : Regex → List Char → Bool
  | p, [] => p.nullable
  | p, c :: cs => (p.deriv c).accepts cs

/-- Does some prefix of the character list match the pattern? -/
def matchFront : Regex → List Char → Bool
  | p, [] => p.nullable
  | p, c :: cs => p.nullable || matchFront (p.deriv c) cs

/-- Does the pattern match somewhere in the character list (any substring)? -/
def searchList : Regex → List Char → Bool
  | p, [] => p.nullable
  | p, c :: cs => matchFront p (c :: cs) || searchList p cs

/-- Unanchored match of a compiled pattern against a request path, as Go's
`regexp.MatchString`: true when the pattern matches somewhere in the path. -/
def searchMatch (p : Regex) (s : String) : Bool :=
  searchList p s.data

/-! ## Filter failures (`src/pkg/connect/types.go`, lines 54-69)

In Go, `filterFailure` embeds an `error` value and a `Category` string; the
embedded error is represented here by its rendered message text, which is
all its `Error()` method contributes to the output. -/

/-- `type filterFailure struct { error; Category string }` from
`src/pkg/connect/types.go` (lines 54-57). -/
structure filterFailure : Type where
  error : String
  Category : String
deriving DecidableEq

/-- `type CriticalFailure filterFailure` from `types.go` (line 59). -/
abbrev CriticalFailure := filterFailure

/-- `func (c CriticalFailure) Error() string` from `types.go` (lines 61-63):
`fmt.Sprintf("%s: %s", c.Category, c.error.Error())`. -/
def CriticalFailure.Error (c : CriticalFailure) : String :=
  c.Category ++ ": " ++ c.error

/-- `type SoftFailure filterFailure` from `types.go` (line 65). -/
abbrev SoftFailure := filterFailure

/-- `func (c SoftFailure) Error() string` from `types.go` (lines 67-69):
`fmt.Sprintf("%s: %s", c.Category, c.error.Error())`. -/
def SoftFailure.Error (c : SoftFailure) : String :=
  c.Category ++ ": " ++ c.error

/-- The dynamic type of the `error` value a filter returns: in Go the engine
distinguishes `CriticalFailure` from `SoftFailure` by a type switch; the
embedding records the dynamic type as a tag. -/
inductive FilterError : Type
  | critical : CriticalFailure → FilterError
  | soft : SoftFailure → FilterError
deriving DecidableEq

/-- Modelled from the spec: the constructor for `CriticalFailure` is not in
the source tree (only its call sites in the tests are).  Spec scenario S3
pairs the call `NewCriticalFailure("Not allowed to execute commands in
running containers", "Security")` with the failure
`{category: "Security", message: "Not allowed ..."}`: the first argument is
the message (the embedded error), the second the category. -/
def NewCriticalFailure (message category : String) : CriticalFailure :=
  { error := message, Category := category }

/-- Modelled from the spec: the constructor for `SoftFailure` is not in the
source tree; same argument order as `NewCriticalFailure` (message first,
category second), per the test call sites and spec section 3. -/
def NewSoftFailure (message category : String) : SoftFailure :=
  { error := message, Category := category }

/-! ## Requests, filter functions and handlers -/

/-- An HTTP request as the engine sees it: URL path, headers and the fully
buffered body (`*http.Request` plus the body bytes the engine reads; spec
section 5: body bytes are read fully into memory for non-streaming
exchanges).  Body bytes are modelled as a string. -/
structure Request : Type where
  path : String
  headers : List (String × String)
  body : String
deriving DecidableEq

/-- `type FilterFunc func(req *http.Request, body []byte) (*http.Request, error)`
from `src/pkg/connect/types.go` (line 18). -/
def FilterFunc : Type :=
  Request → String → Option Request × Option FilterError

/-- `type handler struct { pattern *regexp.Regexp; filter FilterFunc }` from
`src/pkg/connect/types.go` (lines 20-23).  The record has exactly these two
fields: a compiled pattern and a filter function. -/
structure handler : Type where
  pattern : Regex
  filter : FilterFunc

/-- The proxy facade from `src/pkg/connect/types.go` (lines 10-16).  The
`listeners` and `dialer` fields are I/O resources (sockets and the upstream
dial operation); the pure embedding keeps the handler registry and the
connection counter `idx`, and the dial EVENT is recorded by the engine
result below. -/
structure Proxy : Type where
  handlers : List handler
  idx : Nat

/-- Modelled from the spec: `FilterRequests` (proxy facade, spec section 4.1,
"appends a Request handler"); the registration code is not in the source
tree.  Appends one handler record to the ordered registry. -/
def Proxy.FilterRequests (p : Proxy) (pat : Regex) (f : FilterFunc) : Proxy :=
  { p with handlers := p.handlers ++ [{ pattern := pat, filter := f }] }

/-- Modelled from the spec: `Handle` "registers a Request filter (equivalent
to `FilterRequests`)" (spec section 4.1). -/
def Proxy.Handle (p : Proxy) (pat : Regex) (f : FilterFunc) : Proxy :=
  p.FilterRequests pat f

/-! ## Log facility (spec sections 2 and 6) -/

/-- The five log levels recognized by the log facility (spec section 6). -/
inductive LogLevel : Type
  | DEBUG | INFO | WARN | ERROR | NONE
deriving DecidableEq

/-- The chain result of one filter invocation step, as the engine interprets
the `(*http.Request, error)` pair (spec section 4.2). -/
inductive ChainOut : Type
  | forward : Request → ChainOut
  | reject : CriticalFailure → ChainOut
deriving DecidableEq

/-- Modelled from the spec: one dispatch step of the filter chain
(spec section 4.2, the engine's `processFilters` is not in the source tree).
If the handler's pattern matches somewhere in the current request's path the
filter is invoked with the current request and its body; a returned
`CriticalFailure` aborts the chain, a `SoftFailure` is logged and the chain
continues with the current request unchanged, a replacement request becomes
the current request, and `(nil, nil)` leaves it unchanged. -/
def stepFilter (h : handler) (r : Request) : ChainOut :=
  if searchMatch h.pattern r.path then
    match h.filter r r.body with
    | (_, some (FilterError.critical f)) => ChainOut.reject f
    | (_, some (FilterError.soft _)) => ChainOut.forward r
    | (some r', none) => ChainOut.forward r'
    | (none, none) => ChainOut.forward r
  else ChainOut.forward r

/-- Modelled from the spec: the Request filter chain iterates the registered
handlers in registration order, threading the (possibly replaced) current
request (spec section 4.2, steps 1-5). -/
def runChain : List handler → Request → ChainOut
  | [], r => ChainOut.forward r
  | h :: hs, r =>
    match stepFilter h r with
    | ChainOut.reject f => ChainOut.reject f
    | ChainOut.forward r' => runChain hs r'

/-- The replacement requests produced during a chain run, in order; each is
computed from the state the producing handler saw (so each entry reflects
all earlier replacements).  A Critical failure truncates the run. -/
def replacements : List handler → Request → List Request
  | [], _ => []
  | h :: hs, r =>
    if searchMatch h.pattern r.path then
      match h.filter r r.body with
      | (_, some (FilterError.critical _)) => []
      | (_, some (FilterError.soft _)) => replacements hs r
      | (some r', none) => r' :: replacements hs r'
      | (none, none) => replacements hs r
    else replacements hs r

/-- Observable events of a chain run: a filter invocation (with the request
state it was invoked on), or a leveled log entry for a soft failure. -/
inductive Ev : Type
  | invoked : handler → Request → Ev
  | logged : LogLevel → SoftFailure → Ev

/-- Modelled from the spec: the event trace of a chain run.  A handler whose
pattern matches is invoked; a Soft failure is logged at WARN and the run
continues; a Critical failure ends the run (spec section 4.2, steps 2, 4, 5
and section 7, rows FilterCritical / FilterSoft). -/
def chainTrace : List handler → Request → List Ev
  | [], _ => []
  | h :: hs, r =>
    if searchMatch h.pattern r.path then
      Ev.invoked h r ::
        (match h.filter r r.body with
         | (_, some (FilterError.critical _)) => []
         | (_, some (FilterError.soft f)) => Ev.logged LogLevel.WARN f :: chainTrace hs r
         | (some r', none) => chainTrace hs r'
         | (none, none) => chainTrace hs r)
    else chainTrace hs r

/-! ## Header bookkeeping and wire serialization -/

/-- Remove every header with the given name. -/
def removeHeader (name : String) : List (String × String) → List (String × String)
  | [] => []
  | kv :: rest =>
    if kv.1 = name then removeHeader name rest
    else kv :: removeHeader name rest

/-- First value of the named header, if present. -/
def lookupHeader (name : String) : List (String × String) → Option String
  | [] => none
  | kv :: rest => if kv.1 = name then some kv.2 else lookupHeader name rest

/-- Set a header to a single value, dropping previous values of that name. -/
def setHeader (name value : String) (hs : List (String × String)) :
    List (String × String) :=
  (name, value) :: removeHeader name hs

/-- A request in HTTP/1.1 wire form as written upstream. -/
structure WireRequest : Type where
  path : String
  headers : List (String × String)
  body : String
deriving DecidableEq

/-- Modelled from the spec: serialization of the final request for the
upstream write (spec sections 4.2 step 6 and 6, "Wire format"): the
Content-Length header is corrected to the byte count of the body, the other
headers are preserved, and when a filter replaced the body the
Transfer-Encoding header is stripped (chunked transfer is not introduced). -/
def buildWire (r : Request) (replaced : Bool) : WireRequest :=
  { path := r.path
    headers :=
      setHeader "Content-Length" (toString r.body.length)
        (if replaced then removeHeader "Transfer-Encoding" r.headers else r.headers)
    body := r.body }

/-- The synthetic HTTP/1.1 error response of the failure reporter
(spec section 4.6). -/
structure SyntheticResponse : Type where
  statusLine : String
  contentType : String
  contentLength : Nat
  connection : String
  body : String
deriving DecidableEq

/-- Modelled from the spec: the failure reporter (spec section 4.6, not in
the source tree) synthesizes `HTTP/1.1 400 Bad Request` with
`Content-Type: text/plain; charset=utf-8`, `Connection: close`,
`Content-Length: N` and body `"{category}: {message}"` - the rendering of
the failure's `Error()` method from `types.go`. -/
def synthesizeResponse (f : CriticalFailure) : SyntheticResponse :=
  { statusLine := "HTTP/1.1 400 Bad Request"
    contentType := "text/plain; charset=utf-8"
    contentLength := (CriticalFailure.Error f).length
    connection := "close"
    body := CriticalFailure.Error f }

/-- What the engine did for one request: whether it dialed upstream, what it
wrote upstream, what it wrote downstream during the request phase, and
whether the connection is latched to close after the response. -/
structure EngineResult : Type where
  dialed : Bool
  upstream : Option WireRequest
  downstream : List SyntheticResponse
  closeAfterResponse : Bool
deriving DecidableEq

/-- Modelled from the spec: the request phase of the connection engine
(spec section 4.4, states FilteringRequest and ForwardingRequest; the engine
is not in the source tree).  On a Critical failure the synthetic response is
written downstream, `closeAfterResponse` is latched true, and no upstream
dial happens; otherwise the engine dials upstream and writes the final
request in wire form, with `closeAfterResponse` following the request's
`Connection: close` header (spec section 4.4, "Keep-alive"). -/
def handleRequest (hs : List handler) (r : Request) : EngineResult :=
  match runChain hs r with
  | ChainOut.reject f =>
    { dialed := false
      upstream := none
      downstream := [synthesizeResponse f]
      closeAfterResponse := true }
  | ChainOut.forward r' =>
    { dialed := true
      upstream := some (buildWire r' (!(replacements hs r).isEmpty))
      downstream := []
      closeAfterResponse := lookupHeader "Connection" r'.headers == some "close" }

/-! ## The response path

Spec section 4.2: "Response-handler dispatch mirrors (1)-(5), operating on
the upstream response object and its body. A Critical failure during
Response handling also yields a synthetic 400 to the client."  The response
phase of the engine is not in the source tree either; it is modelled from
spec sections 4.2 and 4.4 (states ReadingResponse, FilteringResponse,
WritingResponse), mirroring the request path above. -/

/-- An HTTP response as the engine sees it: status code, headers and the
fully buffered body (`*http.Response` plus the body bytes the engine
reads). -/
structure Response : Type where
  status : Nat
  headers : List (String × String)
  body : String
deriving DecidableEq

/-- The response filter shape registered through `FilterResponses`:
`func(resp *http.Response, body []byte) (*http.Response, error)` (the call
sites in `src/pkg/connect/example_docker_cli_test.go` and
`src/cmd/example.go`). -/
def ResponseFilterFunc : Type :=
  Response → String → Option Response × Option FilterError

/-- Modelled from the spec: a registered Response handler - a compiled
pattern over the ORIGINATING REQUEST's path (spec section 3; the cli test's
response filter reads `resp.Request.URL.Path`) together with a response
filter.  `FilterResponses` "appends a Response handler" (spec section 4.1);
its storage is not in the source tree. -/
structure ResponseHandler : Type where
  pattern : Regex
  filter : ResponseFilterFunc

/-- The chain result of one Response filter invocation step. -/
inductive RespChainOut : Type
  | forward : Response → RespChainOut
  | reject : CriticalFailure → RespChainOut
deriving DecidableEq

/-- Modelled from the spec: one Response-dispatch step, mirroring
`stepFilter` (spec section 4.2): the pattern is matched against the
originating request's path; Critical aborts, Soft is logged and skipped, a
replacement response becomes current, `(nil, nil)` changes nothing. -/
def stepRespFilter (h : ResponseHandler) (reqPath : String) (resp : Response) :
    RespChainOut :=
  if searchMatch h.pattern reqPath then
    match h.filter resp resp.body with
    | (_, some (FilterError.critical f)) => RespChainOut.reject f
    | (_, some (FilterError.soft _)) => RespChainOut.forward resp
    | (some resp', none) => RespChainOut.forward resp'
    | (none, none) => RespChainOut.forward resp
  else RespChainOut.forward resp

/-- Modelled from the spec: the Response filter chain in registration order
(spec section 4.2, mirror of steps 1-5). -/
def runRespChain : List ResponseHandler → String → Response → RespChainOut
  | [], _, resp => RespChainOut.forward resp
  | h :: hs, reqPath, resp =>
    match stepRespFilter h reqPath resp with
    | RespChainOut.reject f => RespChainOut.reject f
    | RespChainOut.forward resp' => runRespChain hs reqPath resp'

/-- The replacement responses produced during a Response chain run, in
order; a Critical failure truncates the run. -/
def respReplacements : List ResponseHandler → String → Response → List Response
  | [], _, _ => []
  | h :: hs, reqPath, resp =>
    if searchMatch h.pattern reqPath then
      match h.filter resp resp.body with
      | (_, some (FilterError.critical _)) => []
      | (_, some (FilterError.soft _)) => respReplacements hs reqPath resp
      | (some resp', none) => resp' :: respReplacements hs reqPath resp'
      | (none, none) => respReplacements hs reqPath resp
    else respReplacements hs reqPath resp

/-- A response in HTTP/1.1 wire form as written downstream. -/
structure WireResponse : Type where
  status : Nat
  headers : List (String × String)
  body : String
deriving DecidableEq

/-- Modelled from the spec: serialization of the final response for the
downstream write (spec sections 3, invariant list, and 6, "Wire format"):
Content-Length is corrected to the byte count of the body that follows, the
other headers are preserved, and when a Response filter replaced the body
the Transfer-Encoding header is stripped (chunked transfer is not
introduced). -/
def buildWireResponse (resp : Response) (replaced : Bool) : WireResponse :=
  { status := resp.status
    headers :=
      setHeader "Content-Length" (toString resp.body.length)
        (if replaced then removeHeader "Transfer-Encoding" resp.headers
         else resp.headers)
    body := resp.body }

/-- What the engine wrote downstream for one upstream response: the
response in wire form, or a synthetic 400 when Response filtering failed
Critically; plus the close latch. -/
structure RespEngineResult : Type where
  wire : Option WireResponse
  synthetic : Option SyntheticResponse
  closeAfterResponse : Bool
deriving DecidableEq

/-- Modelled from the spec: the response phase of the connection engine
(spec section 4.4, states FilteringResponse and WritingResponse).  A
Critical failure during Response handling yields the synthetic 400 and
latches `closeAfterResponse`; otherwise the final response is written
downstream in wire form, with the close latch following its
`Connection: close` header. -/
def handleResponse (hs : List ResponseHandler) (reqPath : String)
    (resp : Response) : RespEngineResult :=
  match runRespChain hs reqPath resp with
  | RespChainOut.reject f =>
    { wire := none
      synthetic := some (synthesizeResponse f)
      closeAfterResponse := true }
  | RespChainOut.forward resp' =>
    { wire := some (buildWireResponse resp'
        (!(respReplacements hs reqPath resp).isEmpty))
      synthetic := none
      closeAfterResponse := lookupHeader "Connection" resp'.headers == some "close" }

/-! ## The JSON filter adapter (spec section 4.3)

`FilterAsJson` and the message type `T` are not in the source tree (only
their call sites in the tests and examples are); the adapter is modelled
from spec section 4.3.  Go's dynamic message type `T` becomes a type
parameter; the `factory` plus JSON decode of the body becomes `dec`, JSON
encode becomes `enc`, and the user mutator - which may panic - is a function
into `MutatorOutcome`. -/

/-- A value thrown by a panicking mutator: a `CriticalFailure`, a
`SoftFailure`, or any other value (rendered opaquely as a string). -/
inductive PanicValue : Type
  | criticalVal : CriticalFailure → PanicValue
  | softVal : SoftFailure → PanicValue
  | otherVal : String → PanicValue
deriving DecidableEq

/-- Outcome of invoking the user-supplied mutator: a returned message, or a
panic carrying some value. -/
inductive MutatorOutcome (α : Type) : Type
  | ok : α → MutatorOutcome α
  | panicked : PanicValue → MutatorOutcome α

/-- What the adapter-produced filter does on one call: return the usual
`(request, error)` pair, or rethrow a recovered panic value. -/
inductive AdapterResult : Type
  | result : Option Request → Option FilterError → AdapterResult
  | rethrow : PanicValue → AdapterResult

/-- Modelled from the spec: the replacement message the adapter builds
(spec section 4.3, step 5): headers inherited from the original,
Content-Length set to the new body length, body replaced by the fresh JSON
bytes. -/
def buildReplacement (req : Request) (newBody : String) : Request :=
  { path := req.path
    headers := setHeader "Content-Length" (toString newBody.length) req.headers
    body := newBody }

/-- Modelled from the spec: `FilterAsJson` (spec section 4.3, not in the
source tree).  Decode failure yields a Critical failure of category `JSON`;
a panic inside the mutator is recovered, with Critical and Soft values
returned as the corresponding failure and any other value rethrown; on
success the re-encoded message becomes a replacement request. -/
def FilterAsJson {α : Type} (dec : String → Option α) (enc : α → String)
    (mutate : α → MutatorOutcome α) (req : Request) (body : String) :
    AdapterResult :=
  match dec body with
  | none =>
    AdapterResult.result none
      (some (FilterError.critical
        { error := "failed to decode the JSON body", Category := "JSON" }))
  | some t =>
    match mutate t with
    | MutatorOutcome.ok t' =>
      AdapterResult.result (some (buildReplacement req (enc t'))) none
    | MutatorOutcome.panicked (PanicValue.criticalVal f) =>
      AdapterResult.result none (some (FilterError.critical f))
    | MutatorOutcome.panicked (PanicValue.softVal f) =>
      AdapterResult.result none (some (FilterError.soft f))
    | MutatorOutcome.panicked (PanicValue.otherVal v) =>
      AdapterResult.rethrow (PanicValue.otherVal v)

/-! ## The spec's Handler record (for comparison with the source record)

Spec section 3 describes a Handler as
`{pattern: compiled regex over request path, kind ∈ {Request, Response},
filter: FilterFunc}`.  The following two definitions follow the spec's
words, to be compared with the source record `handler` above. -/

/-- The handler kind of spec section 3: Request or Response. -/
inductive HandlerKind : Type
  | Request | Response
deriving DecidableEq

/-- The Handler record as the spec's words describe it (spec section 3). -/
structure HandlerSpec : Type where
  pattern : Regex
  kind : HandlerKind
  filter : FilterFunc

/-- The only pattern- and filter-preserving map from the spec's Handler
record into the source record `handler` (`types.go` lines 20-23): the
source record has fields for the pattern and the filter alone, so the kind
has nowhere to go. -/
def eraseKind (h : HandlerSpec) : handler :=
  { pattern := h.pattern, filter := h.filter }

/-- Last element of a list, or the default when the list is empty.  Used to
name "the last replacement produced by the chain, or the original request". -/
def lastOrD {α : Type} : List α → α → α
  | [], d => d
  | x :: xs, _ => lastOrD xs x

/-! ## Concrete fixtures (modelled on the repository's tests) -/

/-- A concrete request, as in `testDockerServiceCreate`. -/
def reqA : Request :=
  { path := "/svc/create", headers := [("Host", "docker")], body := "{}" }

/-- The Critical failure of `testDockerServiceCreate`
(`src/unnamed/part_002`, line 137). -/
def critF : CriticalFailure :=
  NewCriticalFailure "do not use the latest tag" "Policy"

/-- The Soft failure of `testDockerServiceUpdate`
(`src/unnamed/part_002`, lines 283-285). -/
def softF : SoftFailure :=
  NewSoftFailure "consider running at least 3 replicas" "Advice"

/-- A handler whose filter always returns a Critical failure. -/
def hCritical : handler :=
  { pattern := Regex.eps, filter := fun _ _ => (none, some (FilterError.critical critF)) }

/-- A handler whose filter always returns a Soft failure. -/
def hSoft : handler :=
  { pattern := Regex.eps, filter := fun _ _ => (none, some (FilterError.soft softF)) }

/-- A filter that replaces the body of the current request. -/
def replaceBody (b : String) : FilterFunc :=
  fun r _ => (some { r with body := b }, none)

/-- A handler replacing the body with `"one"`. -/
def hReplace1 : handler := { pattern := Regex.eps, filter := replaceBody "one" }

/-- A handler replacing the body with `"two"`. -/
def hReplace2 : handler := { pattern := Regex.eps, filter := replaceBody "two" }

/-- A filter that passes the request through unmodified (`(nil, nil)`). -/
def passFilter : FilterFunc := fun _ _ => (none, none)

/-- `reqA` after `hReplace1` ran. -/
def fwdOne : Request :=
  { path := "/svc/create", headers := [("Host", "docker")], body := "one" }

/-- `reqA` after `hReplace1` and `hReplace2` ran. -/
def fwdTwo : Request :=
  { path := "/svc/create", headers := [("Host", "docker")], body := "two" }

/-- The wire form of `fwdOne` with the replaced flag set. -/
def wireOne : WireRequest := buildWire fwdOne true

/-- A concrete upstream response, with a Transfer-Encoding header to be
stripped on replacement. -/
def respA : Response :=
  { status := 200
    headers := [("Server", "docker"), ("Transfer-Encoding", "chunked")]
    body := "created" }

/-- A Response handler replacing the response body with `"patched"`. -/
def hRespReplace : ResponseHandler :=
  { pattern := Regex.eps
    filter := fun resp _ => (some { resp with body := "patched" }, none) }

/-- `respA` after `hRespReplace` ran. -/
def respPatched : Response :=
  { status := 200
    headers := [("Server", "docker"), ("Transfer-Encoding", "chunked")]
    body := "patched" }

/-- The wire form of `respPatched` with the replaced flag set. -/
def wireRespPatched : WireResponse := buildWireResponse respPatched true

/-! ## Chain lemmas -/

/-- Running the chain over a concatenation first runs the left part; a
Critical abort there is final, otherwise the right part continues from the
left part's final request. -/
theorem runChain_append (xs ys : List handler) (r : Request) :
    runChain (xs ++ ys) r =
      match runChain xs r with
      | ChainOut.forward m => runChain ys m
      | ChainOut.reject f => ChainOut.reject f := by
  induction xs generalizing r with
  | nil => simp [runChain]
  | cons h t ih =>
    simp only [List.cons_append, runChain]
    cases hstep : stepFilter h r with
    | reject f => rfl
    | forward r' => exact ih r'

/-- The chain's final request is the last replacement produced during the
run, or the original request when no matching handler replaced it. -/
theorem runChain_lastOrD (hs : List handler) (r m : Request)
    (h : runChain hs r = ChainOut.forward m) :
    m = lastOrD (replacements hs r) r := by
  induction hs generalizing r with
  | nil =>
    simp only [runChain, ChainOut.forward.injEq] at h
    simp [replacements, lastOrD, h]
  | cons hd t ih =>
    simp only [runChain, stepFilter] at h
    simp only [replacements]
    by_cases hm : searchMatch hd.pattern r.path
    · rcases hflt : hd.filter r r.body with ⟨or, oe⟩
      rcases oe with _ | e
      · rcases or with _ | r'
        · simp only [hm, if_true, hflt] at h
          simp only [hm, if_true, hflt]
          exact ih r h
        · simp only [hm, if_true, hflt] at h
          simp only [hm, if_true, hflt, lastOrD]
          exact ih r' h
      · rcases e with f | f
        · simp only [hm, if_true, hflt] at h
          exact ChainOut.noConfusion h
        · simp only [hm, if_true, hflt] at h
          simp only [hm, if_true, hflt]
          exact ih r h
    · simp only [hm, if_false] at h
      simp only [hm, if_false]
      exact ih r h

/-! ## Header lemmas -/

theorem lookupHeader_setHeader_self (n v : String) (l : List (String × String)) :
    lookupHeader n (setHeader n v l) = some v := by
  simp [setHeader, lookupHeader]

theorem lookupHeader_removeHeader_self (n : String) (l : List (String × String)) :
    lookupHeader n (removeHeader n l) = none := by
  induction l with
  | nil => rfl
  | cons kv rest ih =>
    by_cases h : kv.1 = n
    · simp [removeHeader, h, ih]
    · simp [removeHeader, lookupHeader, h, ih]

theorem lookupHeader_removeHeader_ne (n k : String) (hnk : n ≠ k)
    (l : List (String × String)) :
    lookupHeader n (removeHeader k l) = lookupHeader n l := by
  induction l with
  | nil => rfl
  | cons kv rest ih =>
    by_cases h : kv.1 = k
    · have hkn : ¬ (k = n) := fun hh => hnk hh.symm
      simp [removeHeader, h, lookupHeader, hkn, ih]
    · simp only [removeHeader, if_neg h, lookupHeader]
      by_cases h2 : kv.1 = n
      · simp [h2]
      · simp [h2, ih]

/-! ## Regex search lemmas -/

/-- `matchFront` is prefix matching: some prefix of the list is accepted. -/
theorem matchFront_iff (p : Regex) (l : List Char) :
    matchFront p l = true ↔
      ∃ pre suf : List Char, l = pre ++ suf ∧ p.accepts pre = true := by
  induction l generalizing p with
  | nil =>
    constructor
    · intro h; exact ⟨[], [], rfl, h⟩
    · rintro ⟨pre, suf, heq, hacc⟩
      rcases List.append_eq_nil.mp heq.symm with ⟨hp, _⟩
      subst hp; exact hacc
  | cons c cs ih =>
    constructor
    · intro h
      simp only [matchFront, Bool.or_eq_true] at h
      rcases h with hn | hm
      · exact ⟨[], c :: cs, rfl, hn⟩
      · rcases (ih (p.deriv c)).mp hm with ⟨pre, suf, heq, hacc⟩
        exact ⟨c :: pre, suf, by rw [heq]; rfl, hacc⟩
    · rintro ⟨pre, suf, heq, hacc⟩
      simp only [matchFront, Bool.or_eq_true]
      cases pre with
      | nil =>
        left; exact hacc
      | cons c' pre' =>
        right
        have heq' : c :: cs = c' :: (pre' ++ suf) := heq
        injection heq' with hc1 hc2
        subst hc1
        exact (ih (p.deriv c)).mpr ⟨pre', suf, hc2, hacc⟩

/-- `searchList` is unanchored search: some substring of the list is
accepted by the pattern. -/
theorem searchList_iff (p : Regex) (l : List Char) :
    searchList p l = true ↔
      ∃ pre mid suf : List Char, l = pre ++ (mid ++ suf) ∧ p.accepts mid = true := by
  induction l with
  | nil =>
    constructor
    · intro h; exact ⟨[], [], [], rfl, h⟩
    · rintro ⟨pre, mid, suf, heq, hacc⟩
      rcases List.append_eq_nil.mp heq.symm with ⟨hp, hms⟩
      rcases List.append_eq_nil.mp hms with ⟨hm, _⟩
      subst hm; exact hacc
  | cons c cs ih =>
    constructor
    · intro h
      simp only [searchList, Bool.or_eq_true] at h
      rcases h with hf | hs
      · rcases (matchFront_iff p (c :: cs)).mp hf with ⟨mid, suf, heq, hacc⟩
        exact ⟨[], mid, suf, heq, hacc⟩
      · rcases ih.mp hs with ⟨pre, mid, suf, heq, hacc⟩
        exact ⟨c :: pre, mid, suf, by rw [heq]; rfl, hacc⟩
    · rintro ⟨pre, mid, suf, heq, hacc⟩
      simp only [searchList, Bool.or_eq_true]
      cases pre with
      | nil =>
        left
        exact (matchFront_iff p (c :: cs)).mpr ⟨mid, suf, heq, hacc⟩
      | cons c' pre' =>
        right
        have heq' : c :: cs = c' :: (pre' ++ (mid ++ suf)) := heq
        injection heq' with _ hc2
        exact ih.mpr ⟨pre', mid, suf, hc2, hacc⟩

/-- The compilation of the empty pattern (`Regex.eps`) matches everywhere. -/
theorem searchList_eps : ∀ l : List Char, searchList Regex.eps l = true
  | [] => rfl
  | _ :: _ => by simp [searchList, matchFront, Regex.nullable]

/-! ## Soft-failure lemmas -/

/-- A handler whose filter always reports a Soft failure leaves the chain
result unchanged, wherever it sits in the registration order. -/
theorem runChain_soft_skip (pat : Regex) (fl : FilterFunc) (f : SoftFailure)
    (hfl : ∀ a b, fl a b = (none, some (FilterError.soft f)))
    (xs ys : List handler) (r : Request) :
    runChain (xs ++ { pattern := pat, filter := fl } :: ys) r =
      runChain (xs ++ ys) r := by
  induction xs generalizing r with
  | nil =>
    simp only [List.nil_append, runChain, stepFilter]
    by_cases hm : searchMatch pat r.path
    · simp [hm, hfl]
    · simp [hm]
  | cons hd t ih =>
    simp only [List.cons_append, runChain]
    cases hstep : stepFilter hd r with
    | reject f' => rfl
    | forward r' => exact ih r'

/-- A handler whose filter always reports a Soft failure contributes no
replacement and changes no later replacement. -/
theorem replacements_soft_skip (pat : Regex) (fl : FilterFunc) (f : SoftFailure)
    (hfl : ∀ a b, fl a b = (none, some (FilterError.soft f)))
    (xs ys : List handler) (r : Request) :
    replacements (xs ++ { pattern := pat, filter := fl } :: ys) r =
      replacements (xs ++ ys) r := by
  induction xs generalizing r with
  | nil =>
    simp only [List.nil_append, replacements]
    by_cases hm : searchMatch pat r.path
    · simp [hm, hfl]
    · simp [hm]
  | cons hd t ih =>
    simp only [List.cons_append, replacements]
    by_cases hm : searchMatch hd.pattern r.path
    · rcases hflt : hd.filter r r.body with ⟨or, oe⟩
      rcases oe with _ | e
      · rcases or with _ | r'
        · simp [hm, hflt, ih]
        · simp [hm, hflt, ih]
      · rcases e with f' | f'
        · simp [hm, hflt]
        · simp [hm, hflt, ih]
    · simp [hm, ih]

/-- When the prefix of the chain forwards a request whose path the soft
handler's pattern matches, the soft handler's failure is logged at WARN in
the chain's event trace. -/
theorem chainTrace_soft_logged (pat : Regex) (fl : FilterFunc) (f : SoftFailure)
    (hfl : ∀ a b, fl a b = (none, some (FilterError.soft f)))
    (xs ys : List handler) (r mid : Request)
    (hrun : runChain xs r = ChainOut.forward mid)
    (hmatch : searchMatch pat mid.path = true) :
    Ev.logged LogLevel.WARN f ∈
      chainTrace (xs ++ { pattern := pat, filter := fl } :: ys) r := by
  induction xs generalizing r with
  | nil =>
    simp only [runChain, ChainOut.forward.injEq] at hrun
    subst hrun
    simp only [List.nil_append, chainTrace, hmatch, if_true, hfl]
    exact List.mem_cons_of_mem _ (List.mem_cons_self _ _)
  | cons hd t ih =>
    simp only [runChain, stepFilter] at hrun
    simp only [List.cons_append, chainTrace]
    by_cases hm : searchMatch hd.pattern r.path
    · rcases hflt : hd.filter r r.body with ⟨or, oe⟩
      rcases oe with _ | e
      · rcases or with _ | r'
        · simp only [hm, if_true, hflt] at hrun ⊢
          exact List.mem_cons_of_mem _ (ih r hrun)
        · simp only [hm, if_true, hflt] at hrun ⊢
          exact List.mem_cons_of_mem _ (ih r' hrun)
      · rcases e with f' | f'
        · simp only [hm, if_true, hflt] at hrun
          exact ChainOut.noConfusion hrun
        · simp only [hm, if_true, hflt] at hrun ⊢
          exact List.mem_cons_of_mem _ (List.mem_cons_of_mem _ (ih r hrun))
    · simp only [hm, if_false] at hrun ⊢
      exact ih r hrun

/-! ## Claim theorems -/

/-- Claim C9: for every category string c and message m, `CriticalFailure`
and `SoftFailure` render the identical `Error()` string `"c: m"`; since the
rendered texts coincide on every failure value, no function of the rendered
text can tell the two kinds apart - only the value's dynamic type can. -/
theorem criticalAndSoftRenderIdentically :
    (∀ c m : String,
      CriticalFailure.Error { error := m, Category := c } = c ++ ": " ++ m ∧
      SoftFailure.Error { error := m, Category := c } = c ++ ": " ++ m ∧
      CriticalFailure.Error { error := m, Category := c } =
        SoftFailure.Error { error := m, Category := c }) ∧
    (∀ (g : String → Bool) (f : filterFailure),
      g (CriticalFailure.Error f) = g (SoftFailure.Error f)) := by
  exact ⟨fun c m => ⟨rfl, rfl, rfl⟩, fun g f => rfl⟩

/-- Claim C10: `NewCriticalFailure` and `NewSoftFailure` take the message
first and the category second, and the resulting failure renders as the
category, then `": "`, then the message. -/
theorem constructorsTakeMessageThenCategory :
    ∀ message category : String,
      CriticalFailure.Error (NewCriticalFailure message category) =
        category ++ ": " ++ message ∧
      SoftFailure.Error (NewSoftFailure message category) =
        category ++ ": " ++ message := by
  exact fun message category => ⟨rfl, rfl⟩

/-- Claim C8: a handler's filter is invoked on a request exactly when its
pattern matches the request's URL path; the match is an unanchored search
(the pattern accepted by some substring of the path), and the empty pattern
(compiled to `Regex.eps`) matches every path. -/
theorem filterInvokedIffPatternMatches :
    (∀ (h : handler) (r : Request),
      (Ev.invoked h r ∈ chainTrace [h] r) ↔ searchMatch h.pattern r.path = true) ∧
    (∀ (p : Regex) (s : String),
      searchMatch p s = true ↔
        ∃ pre mid suf : List Char,
          s.data = pre ++ (mid ++ suf) ∧ p.accepts mid = true) ∧
    (∀ s : String, searchMatch Regex.eps s = true) := by
  refine ⟨?_, ?_, ?_⟩
  · intro h r
    constructor
    · intro hmem
      by_cases hm : searchMatch h.pattern r.path = true
      · exact hm
      · exfalso
        have hempty : chainTrace [h] r = [] := by
          simp only [chainTrace, if_neg hm]
        rw [hempty] at hmem
        exact List.not_mem_nil _ hmem
    · intro hm
      simp only [chainTrace, hm, if_true]
      exact List.mem_cons_self _ _
  · intro p s
    exact searchList_iff p s.data
  · intro s
    exact searchList_eps s.data

/-- Claim C1: when the Request filter chain aborts with a Critical failure,
the engine performs no upstream dial, writes nothing upstream, and writes
nothing downstream beyond the synthetic error response. -/
theorem criticalMeansNoUpstreamDial (hs : List handler) (r : Request)
    (f : CriticalFailure) (h : runChain hs r = ChainOut.reject f) :
    (handleRequest hs r).dialed = false ∧
    (handleRequest hs r).upstream = none ∧
    (handleRequest hs r).downstream = [synthesizeResponse f] := by
  simp [handleRequest, h]

/-- Witness for C1: a chain holding one always-Critical handler dials no
upstream connection. -/
theorem criticalMeansNoUpstreamDial_witness :
    runChain [hCritical] reqA = ChainOut.reject critF ∧
    (handleRequest [hCritical] reqA).dialed = false ∧
    (handleRequest [hCritical] reqA).upstream = none :=
  ⟨by decide,
    (criticalMeansNoUpstreamDial [hCritical] reqA critF (by decide)).1,
    (criticalMeansNoUpstreamDial [hCritical] reqA critF (by decide)).2.1⟩

/-- Claim C2: a Critical failure with category c and message m yields the
synthetic downstream response with status line `HTTP/1.1 400 Bad Request`,
a `text/plain` Content-Type, `Connection: close` and body exactly
`c ++ ": " ++ m` (the failure's `Error()` rendering), and
`closeAfterResponse` is latched true. -/
theorem criticalSynthesizes400 (hs : List handler) (r : Request)
    (c m : String)
    (h : runChain hs r = ChainOut.reject { error := m, Category := c }) :
    (handleRequest hs r).downstream =
      [synthesizeResponse { error := m, Category := c }] ∧
    (synthesizeResponse { error := m, Category := c }).statusLine =
      "HTTP/1.1 400 Bad Request" ∧
    (synthesizeResponse { error := m, Category := c }).contentType =
      "text/plain" ++ "; charset=utf-8" ∧
    (synthesizeResponse { error := m, Category := c }).connection = "close" ∧
    (synthesizeResponse { error := m, Category := c }).body = c ++ ": " ++ m ∧
    (handleRequest hs r).closeAfterResponse = true := by
  refine ⟨?_, rfl, rfl, rfl, rfl, ?_⟩
  · simp [handleRequest, h]
  · simp [handleRequest, h]

/-- Witness for C2: the always-Critical handler produces the full synthetic
400 response for category `Policy`. -/
theorem criticalSynthesizes400_witness :
    runChain [hCritical] reqA =
      ChainOut.reject { error := "do not use the latest tag", Category := "Policy" } ∧
    (synthesizeResponse
        { error := "do not use the latest tag", Category := "Policy" }).body =
      "Policy" ++ ": " ++ "do not use the latest tag" :=
  ⟨by decide,
    (criticalSynthesizes400 [hCritical] reqA "Policy" "do not use the latest tag"
      (by decide)).2.2.2.2.1⟩

/-- Claim C4: every message written on the wire carries a Content-Length
header equal to the byte count of the body that follows it - the request
written upstream, the response written downstream, and the synthetic 400 -
and when a filter replaced the body (of the request or of the response) the
Transfer-Encoding header is stripped rather than introducing chunked
transfer. -/
theorem contentLengthMatchesBody (hs : List handler) (r : Request)
    (rhs : List ResponseHandler) (reqPath : String) (resp : Response)
    (w : WireRequest) (wr : WireResponse)
    (hw : (handleRequest hs r).upstream = some w)
    (hwr : (handleResponse rhs reqPath resp).wire = some wr) :
    lookupHeader "Content-Length" w.headers = some (toString w.body.length) ∧
    ((replacements hs r).isEmpty = false →
      lookupHeader "Transfer-Encoding" w.headers = none) ∧
    lookupHeader "Content-Length" wr.headers = some (toString wr.body.length) ∧
    ((respReplacements rhs reqPath resp).isEmpty = false →
      lookupHeader "Transfer-Encoding" wr.headers = none) ∧
    (∀ f : CriticalFailure,
      (synthesizeResponse f).contentLength = (synthesizeResponse f).body.length) := by
  cases hrun : runChain hs r with
  | reject f => simp [handleRequest, hrun] at hw
  | forward m =>
    cases hrrun : runRespChain rhs reqPath resp with
    | reject f => simp [handleResponse, hrrun] at hwr
    | forward mr =>
      simp only [handleRequest, hrun, Option.some.injEq] at hw
      simp only [handleResponse, hrrun, Option.some.injEq] at hwr
      subst hw
      subst hwr
      refine ⟨?_, ?_, ?_, ?_, fun f => rfl⟩
      · exact lookupHeader_setHeader_self _ _ _
      · intro hne
        have hrep : (!(replacements hs r).isEmpty) = true := by
          rw [hne]; rfl
        simp only [buildWire, hrep, if_true, setHeader, lookupHeader]
        rw [if_neg (by decide : ¬ ("Content-Length" = "Transfer-Encoding"))]
        rw [lookupHeader_removeHeader_ne _ _ (by decide) _]
        exact lookupHeader_removeHeader_self _ _
      · exact lookupHeader_setHeader_self _ _ _
      · intro hne
        have hrep : (!(respReplacements rhs reqPath resp).isEmpty) = true := by
          rw [hne]; rfl
        simp only [buildWireResponse, hrep, if_true, setHeader, lookupHeader]
        rw [if_neg (by decide : ¬ ("Content-Length" = "Transfer-Encoding"))]
        rw [lookupHeader_removeHeader_ne _ _ (by decide) _]
        exact lookupHeader_removeHeader_self _ _

/-- Witness for C4: the wire form of a replaced request carries
`Content-Length: 3` for the three-byte body `"one"`, and the wire form of
a response whose body a Response filter replaced carries
`Content-Length: 7` for `"patched"` with its Transfer-Encoding header
stripped. -/
theorem contentLengthMatchesBody_witness :
    (handleRequest [hReplace1] reqA).upstream = some wireOne ∧
    (handleResponse [hRespReplace] "/svc/create" respA).wire =
      some wireRespPatched ∧
    lookupHeader "Content-Length" wireOne.headers =
      some (toString wireOne.body.length) ∧
    lookupHeader "Content-Length" wireRespPatched.headers =
      some (toString wireRespPatched.body.length) ∧
    lookupHeader "Transfer-Encoding" wireRespPatched.headers = none :=
  ⟨by decide, by decide,
    (contentLengthMatchesBody [hReplace1] reqA [hRespReplace] "/svc/create"
      respA wireOne wireRespPatched (by decide) (by decide)).1,
    (contentLengthMatchesBody [hReplace1] reqA [hRespReplace] "/svc/create"
      respA wireOne wireRespPatched (by decide) (by decide)).2.2.1,
    (contentLengthMatchesBody [hReplace1] reqA [hRespReplace] "/svc/create"
      respA wireOne wireRespPatched (by decide) (by decide)).2.2.2.1 (by decide)⟩

/-- Claim C3: the request forwarded upstream is the last replacement any
matching Request handler produced (so its body is the last replacement's
body), the original request when no matching handler replaced it; and the
chain threads its state, so the handlers after any prefix run from that
prefix's (possibly replaced) result. -/
theorem forwardedBodyIsLastReplacement (hs : List handler) (r mOut : Request)
    (h : runChain hs r = ChainOut.forward mOut) :
    mOut = lastOrD (replacements hs r) r ∧
    mOut.body = (lastOrD (replacements hs r) r).body ∧
    (replacements hs r = [] → mOut.body = r.body) ∧
    (∀ xs ys, hs = xs ++ ys → ∀ mid, runChain xs r = ChainOut.forward mid →
      runChain ys mid = ChainOut.forward mOut) := by
  have hm := runChain_lastOrD hs r mOut h
  refine ⟨hm, by rw [hm], ?_, ?_⟩
  · intro hnil
    rw [hm, hnil]
    rfl
  · rintro xs ys rfl mid hxs
    have happ := runChain_append xs ys r
    rw [hxs] at happ
    simp only at happ
    rw [← happ]
    exact h

/-- Witness for C3: with two replacing handlers the forwarded body is the
second handler's replacement, which was computed from the first handler's
replacement. -/
theorem forwardedBodyIsLastReplacement_witness :
    runChain [hReplace1, hReplace2] reqA = ChainOut.forward fwdTwo ∧
    fwdTwo.body = (lastOrD (replacements [hReplace1, hReplace2] reqA) reqA).body :=
  ⟨by decide,
    (forwardedBodyIsLastReplacement [hReplace1, hReplace2] reqA fwdTwo
      (by decide)).2.1⟩

/-- Counterexample for C5: the registered handler record of
`src/pkg/connect/types.go` (lines 20-23) consists of a compiled pattern and
a filter function only; mapping the spec's three-component Handler record
into it while keeping the pattern and the filter identifies a Request-kind
entry with a Response-kind entry, so the record holds no kind. -/
theorem handlerRecordHasNoKind_counterexample :
    eraseKind { pattern := Regex.eps, kind := HandlerKind.Request,
                filter := passFilter } =
      eraseKind { pattern := Regex.eps, kind := HandlerKind.Response,
                  filter := passFilter } ∧
    (HandlerKind.Request == HandlerKind.Response) = false :=
  ⟨rfl, rfl⟩

/-- Claim C5 (amended): every registered handler is a record consisting of a
compiled path regex and a filter function - the record carries no
Request/Response kind - and registration appends to the ordered handler
list, whose order is the order in which matching handlers execute. -/
theorem handlerRecordAndRegistrationOrder (p' : Proxy) (pat : Regex)
    (fl : FilterFunc) :
    (∀ h : handler, h = { pattern := h.pattern, filter := h.filter }) ∧
    (Proxy.FilterRequests p' pat fl).handlers =
      p'.handlers ++ [{ pattern := pat, filter := fl }] ∧
    (Proxy.Handle p' pat fl).handlers =
      p'.handlers ++ [{ pattern := pat, filter := fl }] ∧
    (∀ (xs ys : List handler) (r mid : Request),
      runChain xs r = ChainOut.forward mid →
      runChain (xs ++ ys) r = runChain ys mid) := by
  refine ⟨fun h => rfl, rfl, rfl, ?_⟩
  intro xs ys r mid hxs
  have happ := runChain_append xs ys r
  rw [hxs] at happ
  simpa using happ

/-- Witness for C5 (amended): earlier-registered handlers execute first; a
two-handler chain runs its second handler from the first handler's
result. -/
theorem handlerRecordAndRegistrationOrder_witness :
    runChain [hReplace1] reqA = ChainOut.forward fwdOne ∧
    runChain ([hReplace1] ++ [hReplace2]) reqA = runChain [hReplace2] fwdOne :=
  ⟨by decide,
    (handlerRecordAndRegistrationOrder { handlers := [], idx := 0 }
      Regex.eps passFilter).2.2.2 [hReplace1] [hReplace2] reqA fwdOne (by decide)⟩

/-- Claim C6: a matching handler that reports a Soft failure only gets the
failure logged at WARN; the chain continues with the current request and
body unchanged, and the whole request-phase outcome (dial, upstream write,
downstream writes, close latch) is as if the soft handler were absent. -/
theorem softFailureOnlyLogs (pat : Regex) (fl : FilterFunc) (f : SoftFailure)
    (hfl : ∀ a b, fl a b = (none, some (FilterError.soft f)))
    (xs ys : List handler) (r : Request) :
    runChain (xs ++ { pattern := pat, filter := fl } :: ys) r =
      runChain (xs ++ ys) r ∧
    handleRequest (xs ++ { pattern := pat, filter := fl } :: ys) r =
      handleRequest (xs ++ ys) r ∧
    (∀ mid, runChain xs r = ChainOut.forward mid →
      searchMatch pat mid.path = true →
      Ev.logged LogLevel.WARN f ∈
        chainTrace (xs ++ { pattern := pat, filter := fl } :: ys) r) := by
  refine ⟨runChain_soft_skip pat fl f hfl xs ys r, ?_,
    fun mid hrun hmatch =>
      chainTrace_soft_logged pat fl f hfl xs ys r mid hrun hmatch⟩
  simp only [handleRequest, runChain_soft_skip pat fl f hfl xs ys r,
    replacements_soft_skip pat fl f hfl xs ys r]

/-- Witness for C6: a single always-Soft handler leaves the engine outcome
identical to the empty chain and its failure appears in the trace as a WARN
log entry. -/
theorem softFailureOnlyLogs_witness :
    handleRequest [hSoft] reqA = handleRequest [] reqA ∧
    Ev.logged LogLevel.WARN softF ∈ chainTrace [hSoft] reqA :=
  ⟨(softFailureOnlyLogs Regex.eps
      (fun _ _ => (none, some (FilterError.soft softF))) softF
      (fun _ _ => rfl) [] [] reqA).2.1,
    (softFailureOnlyLogs Regex.eps
      (fun _ _ => (none, some (FilterError.soft softF))) softF
      (fun _ _ => rfl) [] [] reqA).2.2 reqA rfl (by decide)⟩

/-- Claim C7: the filter produced by the JSON adapter recovers any panic of
the user mutator: a panicked `CriticalFailure` or `SoftFailure` is returned
as the corresponding failure result, and any other panicked value is
rethrown. -/
theorem jsonAdapterRecoversPanics {α : Type} (dec : String → Option α)
    (enc : α → String) (mutate : α → MutatorOutcome α) (req : Request)
    (body : String) (t : α) (v : PanicValue)
    (hdec : dec body = some t)
    (hmut : mutate t = MutatorOutcome.panicked v) :
    FilterAsJson dec enc mutate req body =
      match v with
      | PanicValue.criticalVal f =>
        AdapterResult.result none (some (FilterError.critical f))
      | PanicValue.softVal f =>
        AdapterResult.result none (some (FilterError.soft f))
      | PanicValue.otherVal s => AdapterResult.rethrow (PanicValue.otherVal s) := by
  cases v <;> simp [FilterAsJson, hdec, hmut]

/-- Witness for C7: a mutator panicking with a `CriticalFailure` makes the
adapter return that Critical failure as the filter's error result. -/
theorem jsonAdapterRecoversPanics_witness :
    FilterAsJson (fun _ => some 0) (fun _ : Nat => "")
        (fun _ => MutatorOutcome.panicked (PanicValue.criticalVal critF))
        reqA "{}" =
      AdapterResult.result none (some (FilterError.critical critF)) :=
  jsonAdapterRecoversPanics (fun _ => some 0) (fun _ : Nat => "")
    (fun _ => MutatorOutcome.panicked (PanicValue.criticalVal critF))
    reqA "{}" 0 (PanicValue.criticalVal critF) rfl rfl

end DockerFilter
